import Mathlib

/-!
Shallow embedding of the PublishSubscribe event dispatcher
(`Subscription.hpp`, `EventDispatcher.hpp`).

Modelling choices:

* Event types are identified by a `Nat` (the `std::type_index`), events by a
  `Nat` payload, and callback functions by a `Nat` identifier.  A callback
  invocation is recorded in a log as a triple
  `(subscription id, callback id, event)`.
* A `std::map` is modelled as an association list with strictly increasing
  keys.  Keys standing for heap objects (`Subscription*` pointers, channel
  objects) are allocation counters, so a freshly allocated key is larger than
  every existing one — this reproduces the iteration order consequences of
  `std::map` for freshly inserted nodes.
* Undefined behaviour is made explicit: an operation that dereferences a null
  pointer, touches a freed object or advances an invalidated `std::map`
  iterator returns `Except.error` with the corresponding `Fault` instead of a
  successor state.
-/

/-- Undefined behaviour encountered while executing an operation.  `outOfFuel`
is not a program fault: it marks exhaustion of the fuel given to the model of
a re-entrant dispatch loop. -/
inductive Fault where
  | nullDeref
  | iterInvalid
  | useAfterFree
  | outOfFuel
deriving DecidableEq, Repr

/-- First value stored under key `k`, scanning left to right
(`std::map::find`). -/
def mapFind {α : Type} (k : Nat) : List (Nat × α) → Option α
  | [] => none
  | (k', v) :: rest => if k' = k then some v else mapFind k rest

/-- Ordered insertion (`std::map::insert`): if the key is already present the
existing entry is kept, exactly as `std::map::insert` does. -/
def mapInsert {α : Type} (k : Nat) (v : α) : List (Nat × α) → List (Nat × α)
  | [] => [(k, v)]
  | (k', v') :: rest =>
    if k < k' then (k, v) :: (k', v') :: rest
    else if k = k' then (k', v') :: rest
    else (k', v') :: mapInsert k v rest

/-- Replace the value stored under an existing key; no effect when the key is
absent (models assignment through an iterator/reference into the map). -/
def mapUpdate {α : Type} (k : Nat) (v : α) : List (Nat × α) → List (Nat × α)
  | [] => []
  | (k', v') :: rest => if k' = k then (k, v) :: rest else (k', v') :: mapUpdate k v rest

/-- Remove the entry with key `k` (`std::map::erase(key)`). -/
def mapErase {α : Type} (k : Nat) : List (Nat × α) → List (Nat × α)
  | [] => []
  | (k', v') :: rest => if k' = k then rest else (k', v') :: mapErase k rest

/-- All keys of the association list are below the bound `b`
(freshness of the allocation counter `b`). -/
def keysBelow {α : Type} (b : Nat) (m : List (Nat × α)) : Bool :=
  m.all (fun kv => decide (kv.1 < b))

/-- Keys strictly increase along the list (the `std::map` ordering
invariant; implies that keys are pairwise distinct). -/
def sortedKeys {α : Type} : List (Nat × α) → Bool
  | [] => true
  | [_] => true
  | (k1, _) :: (k2, v2) :: rest =>
    decide (k1 < k2) && sortedKeys ((k2, v2) :: rest)

/-- `Subscription<EventType>` (Subscription.hpp).  The single data member
`m_specific_dispatcher` is the raw back-pointer to the channel, modelled as
the channel's heap key; `none` is `nullptr`.  Per the source comment, it
"will be a nullptr if the subscription has been cancelled". -/
structure Subscription where
  m_specific_dispatcher : Option Nat
deriving DecidableEq, Repr

/-- `Subscription::active`: `return m_specific_dispatcher != nullptr;`. -/
def Subscription.active (sub : Subscription) : Bool :=
  sub.m_specific_dispatcher.isSome

/-- A subscription counts as cancelled exactly when its back-pointer has been
nulled (the source comment on `m_specific_dispatcher` ties the two). -/
def Subscription.cancelled (sub : Subscription) : Bool :=
  sub.m_specific_dispatcher.isNone

/-- `SpecificDispatcher<EventType>` (EventDispatcher.hpp): the per-type
channel.  `m_callbacks` maps `Subscription*` keys (heap ids) to callback
ids, in `std::map` key order. -/
structure SpecificDispatcher where
  m_callbacks : List (Nat × Nat)
deriving DecidableEq, Repr

/-- `SpecificDispatcher::publish`: invoke every registered callback with the
event, in map order.  Faithful for callbacks that do not re-enter the
registry; re-entrant callbacks are modelled by `dispatchFrom` below.
Returns the invocation log. -/
def SpecificDispatcher.publish (d : SpecificDispatcher) (ev : Nat) :
    List (Nat × Nat × Nat) :=
  d.m_callbacks.map (fun kv => (kv.1, kv.2, ev))

/-- `SpecificDispatcher::unsubscribe`: `m_callbacks.erase(subscription);`. -/
def SpecificDispatcher.unsubscribe (d : SpecificDispatcher) (subId : Nat) :
    SpecificDispatcher :=
  ⟨mapErase subId d.m_callbacks⟩

/-- The whole-program state: the `EventDispatcher`'s `m_dispatchers` map from
type index to channel, a heap of channel objects, a heap of live
`Subscription` handles, and the two allocation counters. -/
structure State where
  m_dispatchers : List (Nat × Nat)
  channelHeap : List (Nat × SpecificDispatcher)
  subHeap : List (Nat × Subscription)
  nextSubId : Nat
  nextChannelId : Nat
deriving DecidableEq, Repr

/-- The state of a freshly constructed `EventDispatcher`. -/
def initState : State := ⟨[], [], [], 0, 0⟩

/-- `EventDispatcher::dispatcher<T>()`: find the channel for the type index
`t`; when absent, allocate a fresh `SpecificDispatcher`, cache it in
`m_dispatchers` and return it.  Returns the channel id together with the
possibly extended state. -/
def dispatcher (t : Nat) (s : State) : Nat × State :=
  match mapFind t s.m_dispatchers with
  | some cid => (cid, s)
  | none =>
    let cid := s.nextChannelId
    (cid, { s with
            m_dispatchers := mapInsert t cid s.m_dispatchers
            channelHeap := mapInsert cid ⟨[]⟩ s.channelHeap
            nextChannelId := cid + 1 })

/-- `EventDispatcher::subscribe<T>(callback)`: get or create the channel for
`t`, allocate a fresh `Subscription` whose back-pointer names that channel,
and insert the `(subscription, callback)` pair into the channel's
`m_callbacks`.  Returns the new subscription's heap id.  (The inner `match`
cannot miss: `dispatcher` has just ensured the channel exists.) -/
def subscribeOp (t cb : Nat) (s : State) : Nat × State :=
  let r := dispatcher t s
  let cid := r.1
  let s1 := r.2
  let i := s1.nextSubId
  match mapFind cid s1.channelHeap with
  | none => (i, s1)
  | some ch =>
    (i, { s1 with
          subHeap := mapInsert i ⟨some cid⟩ s1.subHeap
          channelHeap := mapUpdate cid ⟨mapInsert i cb ch.m_callbacks⟩ s1.channelHeap
          nextSubId := i + 1 })

/-- `EventDispatcher::publish<T>(event)`: `dispatcher<T>().publish(event)`.
Note that `dispatcher<T>()` creates and caches an empty channel when none
exists yet.  Returns the new state and the invocation log. -/
def publishOp (t ev : Nat) (s : State) : State × List (Nat × Nat × Nat) :=
  let r := dispatcher t s
  match mapFind r.1 r.2.channelHeap with
  | none => (r.2, [])
  | some ch => (r.2, ch.publish ev)

/-- `Subscription::cancel` for the handle with heap id `i`:
`m_specific_dispatcher->unsubscribe(this); m_specific_dispatcher = nullptr;`.
The back-pointer is dereferenced unconditionally, so a null back-pointer
(already-cancelled handle) is a null-pointer dereference, and a dangling one
is a use after free.  `~Subscription` runs exactly this code. -/
def cancelSub (i : Nat) (s : State) : Except Fault State :=
  match mapFind i s.subHeap with
  | none => Except.error Fault.useAfterFree
  | some sub =>
    match sub.m_specific_dispatcher with
    | none => Except.error Fault.nullDeref
    | some cid =>
      match mapFind cid s.channelHeap with
      | none => Except.error Fault.useAfterFree
      | some ch =>
        Except.ok { s with
          channelHeap := mapUpdate cid (ch.unsubscribe i) s.channelHeap
          subHeap := mapUpdate i ⟨none⟩ s.subHeap }

/-- `~SpecificDispatcher` for the channel of type index `t` (run for every
channel when the owning `EventDispatcher` is destroyed):

  `for (auto& kv : m_callbacks) { kv.first->cancel(); }`

Each loop body calls `Subscription::cancel`, which re-enters the dying
channel through `unsubscribe` and erases the very element the loop iterator
points at; the loop then increments the invalidated iterator.  On an empty
map the body never runs and the channel is removed; on a nonempty map the
first increment is undefined behaviour. -/
def destroyChannel (t : Nat) (s : State) : Except Fault State :=
  match mapFind t s.m_dispatchers with
  | none => Except.ok s
  | some cid =>
    match mapFind cid s.channelHeap with
    | none => Except.error Fault.useAfterFree
    | some ch =>
      match ch.m_callbacks with
      | [] => Except.ok { s with
          m_dispatchers := mapErase t s.m_dispatchers
          channelHeap := mapErase cid s.channelHeap }
      | _ :: _ => Except.error Fault.iterInvalid

/-- Registry-lifetime API calls. -/
inductive Op where
  | subscribe (t cb : Nat)
  | publish (t ev : Nat)
  | cancel (i : Nat)
deriving DecidableEq, Repr

/-- Execute one API call, returning the successor state and the invocation
log of that call. -/
def step (op : Op) (s : State) : Except Fault (State × List (Nat × Nat × Nat)) :=
  match op with
  | Op.subscribe t cb => Except.ok ((subscribeOp t cb s).2, [])
  | Op.publish t ev =>
    let r := publishOp t ev s
    Except.ok (r.1, r.2)
  | Op.cancel i => (cancelSub i s).map (fun s2 => (s2, []))

/-- Execute a sequence of API calls, stopping at the first fault. -/
def run : List Op → State → Except Fault State
  | [], s => Except.ok s
  | op :: ops, s =>
    match step op s with
    | Except.error f => Except.error f
    | Except.ok r => run ops r.1

/-- A sequence of `publish` calls for type `t`, one per event in the list;
the logs are concatenated in call order. -/
def publishSeq (t : Nat) : List Nat → State → State × List (Nat × Nat × Nat)
  | [], s => (s, [])
  | ev :: evs, s =>
    let r1 := publishOp t ev s
    let r2 := publishSeq t evs r1.1
    (r2.1, r1.2 ++ r2.2)

/-- What a callback does when invoked, for modelling re-entrant callbacks:
nothing, cancel its own subscription handle, or subscribe a new callback to
the same event type. -/
inductive CbAction where
  | pass
  | cancelSelf
  | subscribeNew (cb : Nat)
deriving DecidableEq, Repr

/-- The first entry of the (key-ordered) callback map whose key is greater
than `last` — i.e. the node a `std::map` iterator reaches by incrementing
past the node with key `last` (`none` stands for `begin()`). -/
def nextAfter (last : Option Nat) : List (Nat × Nat) → Option (Nat × Nat)
  | [] => none
  | (k, v) :: rest =>
    match last with
    | none => some (k, v)
    | some l => if l < k then some (k, v) else nextAfter last rest

/-- One pass of `SpecificDispatcher::publish` over the channel `cid` of type
`t`, where each invoked callback may re-enter the registry according to
`beh`.  Models `std::map` iteration faithfully: after the body runs, the
iterator is incremented, which visits the smallest key greater than the
current one in the *current* map (nodes inserted behind the iterator are
visited, nodes erased ahead of it are skipped); if the body erased the very
node the iterator points at, the increment acts on an invalidated iterator —
undefined behaviour. -/
def dispatchFrom (beh : Nat → CbAction) (t ev cid : Nat) :
    Nat → Option Nat → State → List (Nat × Nat × Nat) →
    Except Fault (State × List (Nat × Nat × Nat))
  | 0, _, _, _ => Except.error Fault.outOfFuel
  | fuel + 1, last, s, log =>
    match mapFind cid s.channelHeap with
    | none => Except.error Fault.useAfterFree
    | some ch =>
      match nextAfter last ch.m_callbacks with
      | none => Except.ok (s, log)
      | some (i, cb) =>
        let log2 := log ++ [(i, cb, ev)]
        let next : Except Fault State :=
          match beh cb with
          | CbAction.pass => Except.ok s
          | CbAction.cancelSelf => cancelSub i s
          | CbAction.subscribeNew cb2 => Except.ok (subscribeOp t cb2 s).2
        match next with
        | Except.error f => Except.error f
        | Except.ok s2 =>
          match mapFind cid s2.channelHeap with
          | none => Except.error Fault.useAfterFree
          | some ch2 =>
            if (mapFind i ch2.m_callbacks).isSome then
              dispatchFrom beh t ev cid fuel (some i) s2 log2
            else
              Except.error Fault.iterInvalid

/-- `EventDispatcher::publish<T>` where the subscribed callbacks may
re-enter the registry as described by `beh`.  `fuel` bounds the number of
loop iterations of the model (re-entrant subscription can extend the map
being iterated). -/
def publishReentrant (beh : Nat → CbAction) (fuel t ev : Nat) (s : State) :
    Except Fault (State × List (Nat × Nat × Nat)) :=
  let r := dispatcher t s
  dispatchFrom beh t ev r.1 fuel none r.2 []

/-- Every channel id cached in `m_dispatchers` resolves to a live channel. -/
def dispatchersLive (s : State) : Bool :=
  s.m_dispatchers.all (fun kv => (mapFind kv.2 s.channelHeap).isSome)

/-- Every channel's `m_callbacks` map is key-ordered and every one of its
entries is backed by a live `Subscription` whose back-pointer names exactly
that channel (the source calls `m_callbacks` a "bijective map"). -/
def channelsBacked (s : State) : Bool :=
  s.channelHeap.all (fun ckv =>
    sortedKeys ckv.2.m_callbacks &&
    ckv.2.m_callbacks.all (fun ikv =>
      match mapFind ikv.1 s.subHeap with
      | some sub => sub.m_specific_dispatcher == some ckv.1
      | none => false))

/-- Every live handle's non-null back-pointer names a live channel. -/
def subsLive (s : State) : Bool :=
  s.subHeap.all (fun ikv =>
    match ikv.2.m_specific_dispatcher with
    | some c => (mapFind c s.channelHeap).isSome
    | none => true)

/-- Well-formedness of a program state; established by construction and
maintained by every non-faulting API call: all maps have strictly
increasing keys, the allocation counters are fresh, every cached channel id
resolves to a live channel, every entry of a channel's `m_callbacks` is
backed by a live `Subscription` whose back-pointer names exactly that
channel, and every non-null back-pointer names a live channel. -/
def wf (s : State) : Bool :=
  sortedKeys s.m_dispatchers &&
  sortedKeys s.channelHeap &&
  sortedKeys s.subHeap &&
  keysBelow s.nextChannelId s.channelHeap &&
  keysBelow s.nextSubId s.subHeap &&
  dispatchersLive s &&
  channelsBacked s &&
  subsLive s

/-- Whether the channel a handle is bound to still exists in the given
state (`false` for a cancelled handle, whose binding is gone). -/
def boundChannelAlive (s : State) (sub : Subscription) : Bool :=
  match sub.m_specific_dispatcher with
  | some cid => (mapFind cid s.channelHeap).isSome
  | none => false

/-! ### Association-map lemmas -/

theorem mapFind_insert_self {α : Type} (k : Nat) (v : α) (m : List (Nat × α))
    (h : mapFind k m = none) : mapFind k (mapInsert k v m) = some v := by
  induction m with
  | nil => simp [mapFind, mapInsert]
  | cons kv rest ih =>
    obtain ⟨k1, v1⟩ := kv
    by_cases hk : k1 = k
    · subst hk
      simp [mapFind] at h
    · simp [mapFind, hk] at h
      rcases Nat.lt_trichotomy k k1 with hlt | heq | hgt
      · simp [mapInsert, hlt, mapFind]
      · exact absurd heq.symm hk
      · have h1 : ¬ k < k1 := Nat.not_lt.mpr (Nat.le_of_lt hgt)
        have h2 : ¬ k = k1 := fun hh => hk hh.symm
        simp [mapInsert, h1, h2, mapFind, hk, ih h]

theorem mapFind_insert_ne {α : Type} (k k2 : Nat) (v : α) (m : List (Nat × α))
    (h : k ≠ k2) : mapFind k (mapInsert k2 v m) = mapFind k m := by
  have h2 : ¬ k2 = k := fun hh => h hh.symm
  induction m with
  | nil => simp [mapFind, mapInsert, h2]
  | cons kv rest ih =>
    obtain ⟨k1, v1⟩ := kv
    by_cases hlt : k2 < k1
    · simp [mapInsert, hlt, mapFind, h2]
    · by_cases heq : k2 = k1
      · simp [mapInsert, hlt, heq]
      · simp [mapInsert, hlt, heq, mapFind, ih]

theorem mapFind_update_self {α : Type} (k : Nat) (v w : α) (m : List (Nat × α))
    (h : mapFind k m = some w) : mapFind k (mapUpdate k v m) = some v := by
  induction m with
  | nil => simp [mapFind] at h
  | cons kv rest ih =>
    obtain ⟨k1, v1⟩ := kv
    by_cases hk : k1 = k
    · subst hk
      simp [mapUpdate, mapFind]
    · simp [mapFind, hk] at h
      simp [mapUpdate, hk, mapFind, ih h]

theorem mapFind_update_ne {α : Type} (k k2 : Nat) (v : α) (m : List (Nat × α))
    (h : k ≠ k2) : mapFind k (mapUpdate k2 v m) = mapFind k m := by
  induction m with
  | nil => simp [mapUpdate]
  | cons kv rest ih =>
    obtain ⟨k1, v1⟩ := kv
    by_cases hk : k1 = k2
    · subst hk
      have h1 : ¬ k1 = k := fun hh => h hh.symm
      simp [mapUpdate, mapFind, h1]
    · simp [mapUpdate, hk, mapFind, ih]

theorem mapFind_erase_ne {α : Type} (k k2 : Nat) (m : List (Nat × α))
    (h : k ≠ k2) : mapFind k (mapErase k2 m) = mapFind k m := by
  induction m with
  | nil => simp [mapErase]
  | cons kv rest ih =>
    obtain ⟨k1, v1⟩ := kv
    by_cases hk : k1 = k2
    · subst hk
      have h1 : ¬ k1 = k := fun hh => h hh.symm
      simp [mapErase, mapFind, h1]
    · simp [mapErase, hk, mapFind, ih]

theorem keysBelow_find_none {α : Type} (b k : Nat) (m : List (Nat × α))
    (hb : keysBelow b m = true) (hk : b ≤ k) : mapFind k m = none := by
  induction m with
  | nil => simp [mapFind]
  | cons kv rest ih =>
    obtain ⟨k1, v1⟩ := kv
    simp [keysBelow] at hb
    have h1 : k1 ≠ k := Nat.ne_of_lt (Nat.lt_of_lt_of_le hb.1 hk)
    simp [mapFind, h1]
    exact ih (by simpa [keysBelow] using hb.2)

theorem keysBelow_mapUpdate {α : Type} (b k : Nat) (v : α) (m : List (Nat × α))
    (hb : keysBelow b m = true) : keysBelow b (mapUpdate k v m) = true := by
  induction m with
  | nil => simp [mapUpdate, keysBelow]
  | cons kv rest ih =>
    obtain ⟨k1, v1⟩ := kv
    simp [keysBelow] at hb
    by_cases hk : k1 = k
    · subst hk
      simp [mapUpdate, keysBelow, hb.1]
      simpa [keysBelow] using hb.2
    · simp [mapUpdate, hk, keysBelow, hb.1]
      have := ih (by simpa [keysBelow] using hb.2)
      simpa [keysBelow] using this

theorem mapFind_mem {α : Type} (k : Nat) (v : α) (m : List (Nat × α))
    (h : mapFind k m = some v) : (k, v) ∈ m := by
  induction m with
  | nil => simp [mapFind] at h
  | cons kv rest ih =>
    obtain ⟨k1, v1⟩ := kv
    by_cases hk : k1 = k
    · subst hk
      simp [mapFind] at h
      simp [h]
    · simp [mapFind, hk] at h
      simp [ih h]

theorem mem_find_isSome {α : Type} (k : Nat) (v : α) (m : List (Nat × α))
    (h : (k, v) ∈ m) : (mapFind k m).isSome := by
  induction m with
  | nil => simp at h
  | cons kv rest ih =>
    obtain ⟨k1, v1⟩ := kv
    by_cases hk : k1 = k
    · simp [mapFind, hk]
    · rcases List.mem_cons.mp h with heq | hmem
      · exact absurd (congrArg Prod.fst heq).symm hk
      · simp [mapFind, hk, ih hmem]

theorem sorted_tail_gt {α : Type} (k1 : Nat) (v1 : α) (rest : List (Nat × α))
    (h : sortedKeys ((k1, v1) :: rest) = true) :
    sortedKeys rest = true ∧ ∀ kv ∈ rest, k1 < kv.1 := by
  induction rest generalizing k1 v1 with
  | nil => simp [sortedKeys]
  | cons kv2 rest2 ih =>
    obtain ⟨k2, v2⟩ := kv2
    simp [sortedKeys] at h
    obtain ⟨h12, hs⟩ := h
    obtain ⟨hs2, hgt⟩ := ih k2 v2 hs
    refine ⟨hs, ?_⟩
    intro kv hkv
    rcases List.mem_cons.mp hkv with heq | hmem
    · subst heq
      exact h12
    · exact Nat.lt_trans h12 (hgt kv hmem)

theorem find_none_of_gt {α : Type} (k : Nat) (m : List (Nat × α))
    (h : ∀ kv ∈ m, k < kv.1) : mapFind k m = none := by
  induction m with
  | nil => simp [mapFind]
  | cons kv rest ih =>
    obtain ⟨k1, v1⟩ := kv
    have h1 : k1 ≠ k := by
      have := h (k1, v1) (List.mem_cons_self _ _)
      exact Nat.ne_of_gt this
    simp [mapFind, h1]
    exact ih (fun kv hkv => h kv (List.mem_cons_of_mem _ hkv))

theorem sorted_erase_find_none {α : Type} (k : Nat) (m : List (Nat × α))
    (h : sortedKeys m = true) : mapFind k (mapErase k m) = none := by
  induction m with
  | nil => simp [mapErase, mapFind]
  | cons kv rest ih =>
    obtain ⟨k1, v1⟩ := kv
    obtain ⟨hs, hgt⟩ := sorted_tail_gt k1 v1 rest h
    by_cases hk : k1 = k
    · subst hk
      simp [mapErase]
      exact find_none_of_gt k1 rest hgt
    · simp [mapErase, hk, mapFind, hk, ih hs]

/-! ### Helper lemmas about the operations -/

theorem dispatchers_after_dispatcher (t t2 cid : Nat) (s : State)
    (h : mapFind t s.m_dispatchers = some cid) :
    mapFind t ((dispatcher t2 s).2).m_dispatchers = some cid := by
  by_cases ht : t2 = t
  · subst ht
    simp [dispatcher, h]
  · cases hf : mapFind t2 s.m_dispatchers with
    | some c => simp [dispatcher, hf, h]
    | none =>
      simp [dispatcher, hf, mapFind_insert_ne t t2 _ _ (fun hh => ht hh.symm), h]

theorem subscribeOp_dispatchers (t2 cb : Nat) (s : State) :
    ((subscribeOp t2 cb s).2).m_dispatchers = ((dispatcher t2 s).2).m_dispatchers := by
  simp only [subscribeOp]
  cases mapFind (dispatcher t2 s).1 ((dispatcher t2 s).2).channelHeap <;> simp

theorem publishOp_dispatchers (t2 ev : Nat) (s : State) :
    ((publishOp t2 ev s).1).m_dispatchers = ((dispatcher t2 s).2).m_dispatchers := by
  simp only [publishOp]
  cases mapFind (dispatcher t2 s).1 ((dispatcher t2 s).2).channelHeap <;> simp

theorem cancelSub_dispatchers (i : Nat) (s s2 : State)
    (h : cancelSub i s = Except.ok s2) : s2.m_dispatchers = s.m_dispatchers := by
  unfold cancelSub at h
  split at h
  · simp at h
  · split at h
    · simp at h
    · split at h
      · simp at h
      · simp only [Except.ok.injEq] at h
        subst h
        rfl

/-! ### The claims -/

/-- Claim C1.  The spec requires `cancel()` to be idempotent (a second call,
including the implicit one from the handle destructor, is a no-op).  The
code instead dereferences the null `m_specific_dispatcher` pointer on the
second call: subscribing, cancelling and cancelling again runs into a null
pointer dereference instead of a no-op. -/
theorem cancel_twice_faults :
    run [Op.subscribe 0 0, Op.cancel 0, Op.cancel 0] initState
      = Except.error Fault.nullDeref := by rfl

/-- Claim C2.  The spec requires Registry teardown with N ≥ 0 live handles
not to crash.  Already at N = 1 the channel destructor erases the map node
its own loop iterator points at (via `cancel` → `unsubscribe`) and then
increments the invalidated iterator: undefined behaviour, modelled as an
`iterInvalid` fault. -/
theorem registry_teardown_with_live_handle_faults :
    (run [Op.subscribe 0 0] initState).bind (destroyChannel 0)
      = Except.error Fault.iterInvalid := by rfl

/-- Claim C3.  The spec requires the channel destructor to cancel the
surviving handles without mutating the map being iterated.  In the code,
whenever the subscriber map is nonempty at destruction time, the loop body
erases the current element from `m_callbacks` and the destructor faults on
the invalidated iterator — for every state, type and channel with a
nonempty subscriber map. -/
theorem channel_dtor_nonempty_faults (s : State) (t cid : Nat) (ch : SpecificDispatcher)
    (hd : mapFind t s.m_dispatchers = some cid)
    (hch : mapFind cid s.channelHeap = some ch)
    (hne : ch.m_callbacks ≠ []) :
    destroyChannel t s = Except.error Fault.iterInvalid := by
  cases hcb : ch.m_callbacks with
  | nil => exact absurd hcb hne
  | cons kv rest => simp [destroyChannel, hd, hch, hcb]

/-- Witness for C3: a concrete registry with one channel holding one live
subscription; destroying the channel faults. -/
theorem channel_dtor_nonempty_faults_witness :
    mapFind 0 (⟨[(0, 0)], [(0, ⟨[(0, 5)]⟩)], [(0, ⟨some 0⟩)], 1, 1⟩ : State).m_dispatchers = some 0 ∧
    mapFind 0 (⟨[(0, 0)], [(0, ⟨[(0, 5)]⟩)], [(0, ⟨some 0⟩)], 1, 1⟩ : State).channelHeap = some ⟨[(0, 5)]⟩ ∧
    destroyChannel 0 ⟨[(0, 0)], [(0, ⟨[(0, 5)]⟩)], [(0, ⟨some 0⟩)], 1, 1⟩ = Except.error Fault.iterInvalid :=
  ⟨rfl, rfl, channel_dtor_nonempty_faults _ 0 0 ⟨[(0, 5)]⟩ rfl rfl (by decide)⟩

/-- Claim C4.  The spec requires a callback that cancels its own
subscription during `publish` to complete the pass without fault.  In the
code, the re-entrant `cancel` erases the map node the publish loop iterator
points at, and the loop then increments the invalidated iterator: with one
subscriber whose callback cancels itself, `publish` faults instead of
completing. -/
theorem reentrant_self_cancel_faults :
    (run [Op.subscribe 0 0] initState).bind
        (publishReentrant (fun _ => CbAction.cancelSelf) 10 0 7)
      = Except.error Fault.iterInvalid := by rfl

/-- Claim C5.  No delivery after cancel: if a handle is successfully
cancelled before a publish, no invocation of that publish is on behalf of
the cancelled subscription, whatever event type is published. -/
theorem no_delivery_after_cancel (s s2 : State) (i t ev : Nat)
    (hwf : wf s = true) (hc : cancelSub i s = Except.ok s2) :
    ∀ e ∈ (publishOp t ev s2).2, e.1 ≠ i := by
  have hkb : keysBelow s.nextChannelId s.channelHeap = true := by
    simp only [wf, Bool.and_eq_true] at hwf
    exact hwf.1.1.1.1.2
  have hcb : channelsBacked s = true := by
    simp only [wf, Bool.and_eq_true] at hwf
    exact hwf.1.2
  unfold cancelSub at hc
  split at hc
  · exact absurd hc (by simp)
  rename_i sub hsub
  split at hc
  · exact absurd hc (by simp)
  rename_i c hptr
  split at hc
  · exact absurd hc (by simp)
  rename_i ch hch
  simp only [Except.ok.injEq] at hc
  subst hc
  intro e he heq
  simp only [publishOp] at he
  cases hd : mapFind t s.m_dispatchers with
  | none =>
    rw [show (({ s with
        channelHeap := mapUpdate c (ch.unsubscribe i) s.channelHeap,
        subHeap := mapUpdate i ⟨none⟩ s.subHeap } : State)).m_dispatchers
      = s.m_dispatchers from rfl] at he
    simp only [dispatcher, hd] at he
    have hkb2 : keysBelow s.nextChannelId (mapUpdate c (ch.unsubscribe i) s.channelHeap) = true :=
      keysBelow_mapUpdate _ _ _ _ hkb
    have hf0 : mapFind s.nextChannelId (mapUpdate c (ch.unsubscribe i) s.channelHeap) = none :=
      keysBelow_find_none _ _ _ hkb2 (Nat.le_refl _)
    have hf1 : mapFind s.nextChannelId
        (mapInsert s.nextChannelId ⟨[]⟩ (mapUpdate c (ch.unsubscribe i) s.channelHeap))
        = some ⟨[]⟩ := mapFind_insert_self _ _ _ hf0
    simp only [hf1, SpecificDispatcher.publish, List.map_nil] at he
    exact absurd he (List.not_mem_nil e)
  | some cid =>
    simp only [dispatcher, hd] at he
    by_cases hcc : cid = c
    · subst hcc
      have hup : mapFind cid (mapUpdate cid (ch.unsubscribe i) s.channelHeap)
          = some (ch.unsubscribe i) := mapFind_update_self _ _ _ _ hch
      rw [hup] at he
      simp only [SpecificDispatcher.publish, SpecificDispatcher.unsubscribe,
        List.mem_map] at he
      obtain ⟨kv, hkv, hkve⟩ := he
      have hkvi : kv.1 = i := by rw [← hkve] at heq; exact heq
      have hsorted : sortedKeys ch.m_callbacks = true := by
        have hmem := mapFind_mem cid ch s.channelHeap hch
        have hthis := List.all_eq_true.mp hcb (cid, ch) hmem
        simp only [Bool.and_eq_true] at hthis
        exact hthis.1
      have hnone : mapFind i (mapErase i ch.m_callbacks) = none :=
        sorted_erase_find_none i ch.m_callbacks hsorted
      have hsome : (mapFind i (mapErase i ch.m_callbacks)).isSome := by
        have hin : (kv.1, kv.2) ∈ mapErase i ch.m_callbacks := by
          rw [Prod.mk.eta]
          exact hkv
        rw [hkvi] at hin
        exact mem_find_isSome i kv.2 _ hin
      rw [hnone] at hsome
      exact absurd hsome (by simp)
    · have hup : mapFind cid (mapUpdate c (ch.unsubscribe i) s.channelHeap)
          = mapFind cid s.channelHeap :=
        mapFind_update_ne cid c _ _ hcc
      rw [hup] at he
      cases hch2 : mapFind cid s.channelHeap with
      | none =>
        rw [hch2] at he
        simp at he
      | some ch2 =>
        rw [hch2] at he
        simp only [SpecificDispatcher.publish, List.mem_map] at he
        obtain ⟨kv, hkv, hkve⟩ := he
        have hkvi : kv.1 = i := by rw [← hkve] at heq; exact heq
        have hmem := mapFind_mem cid ch2 s.channelHeap hch2
        have hall := List.all_eq_true.mp hcb (cid, ch2) hmem
        simp only [Bool.and_eq_true] at hall
        have hback := hall.2
        have hkvb := List.all_eq_true.mp hback kv hkv
        rw [hkvi, hsub] at hkvb
        simp only [beq_iff_eq] at hkvb
        rw [hptr] at hkvb
        simp only [Option.some.injEq] at hkvb
        exact hcc hkvb.symm

/-- Witness for C5: two live subscriptions for type 0; cancelling handle 0
succeeds, and the following publish invokes only subscription 1. -/
theorem no_delivery_after_cancel_witness :
    wf ⟨[(0, 0)], [(0, ⟨[(0, 5), (1, 6)]⟩)], [(0, ⟨some 0⟩), (1, ⟨some 0⟩)], 2, 1⟩ = true ∧
    cancelSub 0 ⟨[(0, 0)], [(0, ⟨[(0, 5), (1, 6)]⟩)], [(0, ⟨some 0⟩), (1, ⟨some 0⟩)], 2, 1⟩
      = Except.ok ⟨[(0, 0)], [(0, ⟨[(1, 6)]⟩)], [(0, ⟨none⟩), (1, ⟨some 0⟩)], 2, 1⟩ ∧
    ∀ e ∈ (publishOp 0 9 ⟨[(0, 0)], [(0, ⟨[(1, 6)]⟩)], [(0, ⟨none⟩), (1, ⟨some 0⟩)], 2, 1⟩).2,
      e.1 ≠ 0 :=
  ⟨by decide, by rfl,
    no_delivery_after_cancel ⟨[(0, 0)], [(0, ⟨[(0, 5), (1, 6)]⟩)], [(0, ⟨some 0⟩), (1, ⟨some 0⟩)], 2, 1⟩
      ⟨[(0, 0)], [(0, ⟨[(1, 6)]⟩)], [(0, ⟨none⟩), (1, ⟨some 0⟩)], 2, 1⟩ 0 0 9
      (by decide) (by rfl)⟩

/-- Claim C6.  Single delivery: if type `t`'s channel holds exactly one
subscription `(i, cb)`, then a sequence of N publishes of type `t` leaves
the state unchanged and invokes that callback exactly N times, once per
publish, with the corresponding event, in publish order. -/
theorem single_subscriber_delivery (s : State) (t cid i cb : Nat) (evs : List Nat)
    (hd : mapFind t s.m_dispatchers = some cid)
    (hch : mapFind cid s.channelHeap = some ⟨[(i, cb)]⟩) :
    publishSeq t evs s = (s, evs.map (fun ev => (i, cb, ev))) := by
  induction evs with
  | nil => simp [publishSeq]
  | cons ev evs ih =>
    have hp : publishOp t ev s = (s, [(i, cb, ev)]) := by
      simp [publishOp, dispatcher, hd, hch, SpecificDispatcher.publish]
    simp [publishSeq, hp, ih]

/-- Witness for C6: three publishes to the single subscriber of type 0
produce exactly its three invocations in order. -/
theorem single_subscriber_delivery_witness :
    mapFind 0 (⟨[(0, 0)], [(0, ⟨[(0, 5)]⟩)], [(0, ⟨some 0⟩)], 1, 1⟩ : State).m_dispatchers = some 0 ∧
    mapFind 0 (⟨[(0, 0)], [(0, ⟨[(0, 5)]⟩)], [(0, ⟨some 0⟩)], 1, 1⟩ : State).channelHeap = some ⟨[(0, 5)]⟩ ∧
    publishSeq 0 [10, 11, 12] ⟨[(0, 0)], [(0, ⟨[(0, 5)]⟩)], [(0, ⟨some 0⟩)], 1, 1⟩
      = (⟨[(0, 0)], [(0, ⟨[(0, 5)]⟩)], [(0, ⟨some 0⟩)], 1, 1⟩, [(0, 5, 10), (0, 5, 11), (0, 5, 12)]) :=
  ⟨rfl, rfl, single_subscriber_delivery _ 0 0 0 5 [10, 11, 12] rfl rfl⟩

/-- Claim C7.  `active()` returns true exactly when the handle has not been
cancelled and the channel it is bound to still exists: in any well-formed
state, a live handle's `active()` equals "not cancelled and bound channel
alive" (the code's non-null back-pointer never dangles). -/
theorem active_iff_not_cancelled_and_alive (s : State) (i : Nat) (sub : Subscription)
    (hwf : wf s = true) (hs : mapFind i s.subHeap = some sub) :
    sub.active = (!sub.cancelled && boundChannelAlive s sub) := by
  cases hptr : sub.m_specific_dispatcher with
  | none => simp [Subscription.active, Subscription.cancelled, boundChannelAlive, hptr]
  | some c =>
    have hlive : subsLive s = true := by
      simp only [wf, Bool.and_eq_true] at hwf
      exact hwf.2
    have hmem := mapFind_mem i sub s.subHeap hs
    have halive := List.all_eq_true.mp hlive (i, sub) hmem
    rw [hptr] at halive
    simp only [] at halive
    simp [Subscription.active, Subscription.cancelled, boundChannelAlive, hptr, halive]

/-- Witness for C7: a live handle bound to a live channel is active. -/
theorem active_iff_witness :
    wf ⟨[(0, 0)], [(0, ⟨[(0, 5)]⟩)], [(0, ⟨some 0⟩)], 1, 1⟩ = true ∧
    mapFind 0 (⟨[(0, 0)], [(0, ⟨[(0, 5)]⟩)], [(0, ⟨some 0⟩)], 1, 1⟩ : State).subHeap = some ⟨some 0⟩ ∧
    Subscription.active ⟨some 0⟩
      = (!Subscription.cancelled ⟨some 0⟩ &&
          boundChannelAlive ⟨[(0, 0)], [(0, ⟨[(0, 5)]⟩)], [(0, ⟨some 0⟩)], 1, 1⟩ ⟨some 0⟩) :=
  ⟨by decide, rfl,
    active_iff_not_cancelled_and_alive ⟨[(0, 0)], [(0, ⟨[(0, 5)]⟩)], [(0, ⟨some 0⟩)], 1, 1⟩ 0
      ⟨some 0⟩ (by decide) rfl⟩

/-- Counterexample to claim C8 as stated: publishing type 0 on a fresh
Registry leaves the Registry changed — `publish` goes through
`dispatcher<T>()`, which creates and caches a channel for the type. -/
theorem publish_unsubscribed_type_mutates_registry :
    (publishOp 0 0 initState).1 ≠ initState := by decide

/-- Claim C8, amended.  Publishing a type with no channel invokes no
callback and is not an error, but it is not state-preserving: it creates
and caches an empty channel for the type. -/
theorem publish_no_channel_creates_channel (s : State) (t ev : Nat)
    (hwf : wf s = true) (ht : mapFind t s.m_dispatchers = none) :
    publishOp t ev s =
      ({ s with m_dispatchers := mapInsert t s.nextChannelId s.m_dispatchers
                channelHeap := mapInsert s.nextChannelId ⟨[]⟩ s.channelHeap
                nextChannelId := s.nextChannelId + 1 }, []) := by
  have hkb : keysBelow s.nextChannelId s.channelHeap = true := by
    simp only [wf, Bool.and_eq_true] at hwf
    exact hwf.1.1.1.1.2
  have hf : mapFind s.nextChannelId s.channelHeap = none :=
    keysBelow_find_none _ _ _ hkb (Nat.le_refl _)
  have hf2 : mapFind s.nextChannelId (mapInsert s.nextChannelId ⟨[]⟩ s.channelHeap)
      = some ⟨[]⟩ := mapFind_insert_self _ _ _ hf
  simp [publishOp, dispatcher, ht, hf2, SpecificDispatcher.publish]

/-- Witness for the amended C8: publishing type 0 on a fresh Registry
invokes nothing and adds exactly one empty channel. -/
theorem publish_no_channel_creates_channel_witness :
    wf initState = true ∧ mapFind 0 initState.m_dispatchers = none ∧
    publishOp 0 3 initState = (⟨[(0, 0)], [(0, ⟨[]⟩)], [], 0, 1⟩, []) :=
  ⟨by decide, rfl, publish_no_channel_creates_channel initState 0 3 (by decide) rfl⟩

/-- Claim C9.  Once `m_dispatchers` maps type `t` to channel `cid`, no
sequence of registry-lifetime API calls (subscribe, publish, cancel) ever
changes that mapping: the channel created on first access is cached and
every later lookup for `t` yields the same channel. -/
theorem channel_cached_never_replaced (ops : List Op) (s s2 : State) (t cid : Nat)
    (hrun : run ops s = Except.ok s2)
    (h : mapFind t s.m_dispatchers = some cid) :
    mapFind t s2.m_dispatchers = some cid := by
  induction ops generalizing s with
  | nil =>
    simp [run] at hrun
    subst hrun
    exact h
  | cons op ops ih =>
    cases op with
    | subscribe t2 cb =>
      simp only [run, step] at hrun
      refine ih _ hrun ?_
      rw [subscribeOp_dispatchers]
      exact dispatchers_after_dispatcher t t2 cid s h
    | publish t2 ev =>
      simp only [run, step] at hrun
      refine ih _ hrun ?_
      rw [publishOp_dispatchers]
      exact dispatchers_after_dispatcher t t2 cid s h
    | cancel i =>
      simp only [run, step] at hrun
      cases hc : cancelSub i s with
      | error f => simp [hc, Except.map] at hrun
      | ok s3 =>
        simp only [hc, Except.map] at hrun
        refine ih _ hrun ?_
        rw [cancelSub_dispatchers i s s3 hc]
        exact h

/-- Witness for C9: after a publish of another type, two subscribes and a
cancel, type 0 still maps to channel 0. -/
theorem channel_cached_never_replaced_witness :
    run [Op.publish 0 9, Op.subscribe 1 4, Op.subscribe 0 5, Op.cancel 1]
        ⟨[(0, 0)], [(0, ⟨[]⟩)], [], 0, 1⟩
      = Except.ok ⟨[(0, 0), (1, 1)], [(0, ⟨[]⟩), (1, ⟨[(0, 4)]⟩)],
          [(0, ⟨some 1⟩), (1, ⟨none⟩)], 2, 2⟩ ∧
    mapFind 0 ([(0, 0)] : List (Nat × Nat)) = some 0 ∧
    mapFind 0 ([(0, 0), (1, 1)] : List (Nat × Nat)) = some 0 := by
  refine ⟨by rfl, rfl, ?_⟩
  exact channel_cached_never_replaced [Op.publish 0 9, Op.subscribe 1 4, Op.subscribe 0 5, Op.cancel 1]
    ⟨[(0, 0)], [(0, ⟨[]⟩)], [], 0, 1⟩ _ 0 0 (by rfl) rfl

/-- Claim C10.  Subscribing the same callback twice to the same type yields
two subscriptions with distinct identities; a publish invokes the callback
once per subscription (twice in total), and cancelling the first leaves the
second active and still receiving events. -/
theorem duplicate_subscribe_independent (s : State) (t cb ev : Nat)
    (hwf : wf s = true) (ht : mapFind t s.m_dispatchers = none) :
    ∃ i1 s1 i2 s2 s3,
      subscribeOp t cb s = (i1, s1) ∧
      subscribeOp t cb s1 = (i2, s2) ∧
      i1 ≠ i2 ∧
      (publishOp t ev s2).2 = [(i1, cb, ev), (i2, cb, ev)] ∧
      cancelSub i1 s2 = Except.ok s3 ∧
      (publishOp t ev s3).2 = [(i2, cb, ev)] := by
  have hkbC : keysBelow s.nextChannelId s.channelHeap = true := by
    simp only [wf, Bool.and_eq_true] at hwf
    exact hwf.1.1.1.1.2
  have hkbS : keysBelow s.nextSubId s.subHeap = true := by
    simp only [wf, Bool.and_eq_true] at hwf
    exact hwf.1.1.1.2
  have hfc0 : mapFind s.nextChannelId s.channelHeap = none :=
    keysBelow_find_none _ _ _ hkbC (Nat.le_refl _)
  have hfc1 : mapFind s.nextChannelId (mapInsert s.nextChannelId ⟨[]⟩ s.channelHeap)
      = some ⟨[]⟩ := mapFind_insert_self _ _ _ hfc0
  have hfs0 : mapFind s.nextSubId s.subHeap = none :=
    keysBelow_find_none _ _ _ hkbS (Nat.le_refl _)
  have hne1 : ¬ (s.nextSubId + 1 < s.nextSubId) := by omega
  have hne2 : ¬ (s.nextSubId + 1 = s.nextSubId) := by omega
  have hne3 : s.nextSubId ≠ s.nextSubId + 1 := by omega
  have h1 : subscribeOp t cb s =
      (s.nextSubId,
       { m_dispatchers := mapInsert t s.nextChannelId s.m_dispatchers
         channelHeap := mapUpdate s.nextChannelId ⟨[(s.nextSubId, cb)]⟩
           (mapInsert s.nextChannelId ⟨[]⟩ s.channelHeap)
         subHeap := mapInsert s.nextSubId ⟨some s.nextChannelId⟩ s.subHeap
         nextSubId := s.nextSubId + 1
         nextChannelId := s.nextChannelId + 1 }) := by
    simp [subscribeOp, dispatcher, ht, hfc1, mapInsert]
  have hft1 : mapFind t (mapInsert t s.nextChannelId s.m_dispatchers) = some s.nextChannelId :=
    mapFind_insert_self _ _ _ ht
  have hfc2 : mapFind s.nextChannelId
      (mapUpdate s.nextChannelId ⟨[(s.nextSubId, cb)]⟩
        (mapInsert s.nextChannelId ⟨[]⟩ s.channelHeap))
      = some ⟨[(s.nextSubId, cb)]⟩ := mapFind_update_self _ _ _ _ hfc1
  have h2 : subscribeOp t cb
      ({ m_dispatchers := mapInsert t s.nextChannelId s.m_dispatchers
         channelHeap := mapUpdate s.nextChannelId ⟨[(s.nextSubId, cb)]⟩
           (mapInsert s.nextChannelId ⟨[]⟩ s.channelHeap)
         subHeap := mapInsert s.nextSubId ⟨some s.nextChannelId⟩ s.subHeap
         nextSubId := s.nextSubId + 1
         nextChannelId := s.nextChannelId + 1 } : State) =
      (s.nextSubId + 1,
       { m_dispatchers := mapInsert t s.nextChannelId s.m_dispatchers
         channelHeap := mapUpdate s.nextChannelId
             ⟨[(s.nextSubId, cb), (s.nextSubId + 1, cb)]⟩
             (mapUpdate s.nextChannelId ⟨[(s.nextSubId, cb)]⟩
               (mapInsert s.nextChannelId ⟨[]⟩ s.channelHeap))
         subHeap := mapInsert (s.nextSubId + 1) ⟨some s.nextChannelId⟩
             (mapInsert s.nextSubId ⟨some s.nextChannelId⟩ s.subHeap)
         nextSubId := s.nextSubId + 1 + 1
         nextChannelId := s.nextChannelId + 1 }) := by
    simp [subscribeOp, dispatcher, hft1, hfc2, mapInsert, hne1, hne2]
  have hfc3 : mapFind s.nextChannelId
      (mapUpdate s.nextChannelId ⟨[(s.nextSubId, cb), (s.nextSubId + 1, cb)]⟩
        (mapUpdate s.nextChannelId ⟨[(s.nextSubId, cb)]⟩
          (mapInsert s.nextChannelId ⟨[]⟩ s.channelHeap)))
      = some ⟨[(s.nextSubId, cb), (s.nextSubId + 1, cb)]⟩ :=
    mapFind_update_self _ _ _ _ hfc2
  have h4 : (publishOp t ev
      ({ m_dispatchers := mapInsert t s.nextChannelId s.m_dispatchers
         channelHeap := mapUpdate s.nextChannelId
             ⟨[(s.nextSubId, cb), (s.nextSubId + 1, cb)]⟩
             (mapUpdate s.nextChannelId ⟨[(s.nextSubId, cb)]⟩
               (mapInsert s.nextChannelId ⟨[]⟩ s.channelHeap))
         subHeap := mapInsert (s.nextSubId + 1) ⟨some s.nextChannelId⟩
             (mapInsert s.nextSubId ⟨some s.nextChannelId⟩ s.subHeap)
         nextSubId := s.nextSubId + 1 + 1
         nextChannelId := s.nextChannelId + 1 } : State)).2
      = [(s.nextSubId, cb, ev), (s.nextSubId + 1, cb, ev)] := by
    simp [publishOp, dispatcher, hft1, hfc3, SpecificDispatcher.publish]
  have hfsub2 : mapFind s.nextSubId
      (mapInsert (s.nextSubId + 1) ⟨some s.nextChannelId⟩
        (mapInsert s.nextSubId ⟨some s.nextChannelId⟩ s.subHeap))
      = some ⟨some s.nextChannelId⟩ := by
    rw [mapFind_insert_ne _ _ _ _ hne3]
    exact mapFind_insert_self _ _ _ hfs0
  have h5 : cancelSub s.nextSubId
      ({ m_dispatchers := mapInsert t s.nextChannelId s.m_dispatchers
         channelHeap := mapUpdate s.nextChannelId
             ⟨[(s.nextSubId, cb), (s.nextSubId + 1, cb)]⟩
             (mapUpdate s.nextChannelId ⟨[(s.nextSubId, cb)]⟩
               (mapInsert s.nextChannelId ⟨[]⟩ s.channelHeap))
         subHeap := mapInsert (s.nextSubId + 1) ⟨some s.nextChannelId⟩
             (mapInsert s.nextSubId ⟨some s.nextChannelId⟩ s.subHeap)
         nextSubId := s.nextSubId + 1 + 1
         nextChannelId := s.nextChannelId + 1 } : State) =
      Except.ok
       { m_dispatchers := mapInsert t s.nextChannelId s.m_dispatchers
         channelHeap := mapUpdate s.nextChannelId ⟨[(s.nextSubId + 1, cb)]⟩
             (mapUpdate s.nextChannelId
               ⟨[(s.nextSubId, cb), (s.nextSubId + 1, cb)]⟩
               (mapUpdate s.nextChannelId ⟨[(s.nextSubId, cb)]⟩
                 (mapInsert s.nextChannelId ⟨[]⟩ s.channelHeap)))
         subHeap := mapUpdate s.nextSubId ⟨none⟩
             (mapInsert (s.nextSubId + 1) ⟨some s.nextChannelId⟩
               (mapInsert s.nextSubId ⟨some s.nextChannelId⟩ s.subHeap))
         nextSubId := s.nextSubId + 1 + 1
         nextChannelId := s.nextChannelId + 1 } := by
    simp [cancelSub, hfsub2, hfc3, SpecificDispatcher.unsubscribe, mapErase]
  have hfc4 : mapFind s.nextChannelId
      (mapUpdate s.nextChannelId ⟨[(s.nextSubId + 1, cb)]⟩
        (mapUpdate s.nextChannelId
          ⟨[(s.nextSubId, cb), (s.nextSubId + 1, cb)]⟩
          (mapUpdate s.nextChannelId ⟨[(s.nextSubId, cb)]⟩
            (mapInsert s.nextChannelId ⟨[]⟩ s.channelHeap))))
      = some ⟨[(s.nextSubId + 1, cb)]⟩ :=
    mapFind_update_self _ _ _ _ hfc3
  have h6 : (publishOp t ev
      ({ m_dispatchers := mapInsert t s.nextChannelId s.m_dispatchers
         channelHeap := mapUpdate s.nextChannelId ⟨[(s.nextSubId + 1, cb)]⟩
             (mapUpdate s.nextChannelId
               ⟨[(s.nextSubId, cb), (s.nextSubId + 1, cb)]⟩
               (mapUpdate s.nextChannelId ⟨[(s.nextSubId, cb)]⟩
                 (mapInsert s.nextChannelId ⟨[]⟩ s.channelHeap)))
         subHeap := mapUpdate s.nextSubId ⟨none⟩
             (mapInsert (s.nextSubId + 1) ⟨some s.nextChannelId⟩
               (mapInsert s.nextSubId ⟨some s.nextChannelId⟩ s.subHeap))
         nextSubId := s.nextSubId + 1 + 1
         nextChannelId := s.nextChannelId + 1 } : State)).2
      = [(s.nextSubId + 1, cb, ev)] := by
    simp [publishOp, dispatcher, hft1, hfc4, SpecificDispatcher.publish]
  exact ⟨s.nextSubId, _, s.nextSubId + 1, _, _, h1, h2, hne3, h4, h5, h6⟩

/-- Witness for C10: on a fresh Registry, two subscriptions of callback 7 to
type 0 are independent. -/
theorem duplicate_subscribe_independent_witness :
    wf initState = true ∧ mapFind 0 initState.m_dispatchers = none ∧
    (∃ i1 s1 i2 s2 s3,
      subscribeOp 0 7 initState = (i1, s1) ∧
      subscribeOp 0 7 s1 = (i2, s2) ∧
      i1 ≠ i2 ∧
      (publishOp 0 9 s2).2 = [(i1, 7, 9), (i2, 7, 9)] ∧
      cancelSub i1 s2 = Except.ok s3 ∧
      (publishOp 0 9 s3).2 = [(i2, 7, 9)]) :=
  ⟨by decide, rfl, duplicate_subscribe_independent initState 0 7 9 (by decide) rfl⟩
